import Mathlib

/-!
# A shallow embedding of `libdepot` (the depot key-value store core)

This file models the storage/encryption engine of the depot command-line
key-value store: the `storage` and `salt` tables, the salt lifecycle in
`NewDepot`, the per-value encryption protocol (`encrypt`/`decrypt`), and the
public operations `Stow`, `Fetch`, `Drop`, `Peek` with their error semantics.

Modelling decisions, all stated once here:

* Byte slices (`[]byte`) are `List Nat`. A Go `[]byte` that may be `nil` (the
  `password` argument) is an `Option Bytes`: `none` is the nil slice, and
  `some []` is the empty but non-nil slice — the two are distinguished by the
  source (`if password == nil`).
* The cryptographic primitives are modelled symbolically, in the standard
  ideal-cipher style: `pbkdf2.Key(password, salt, 4096, 32, sha1.New)` is the
  pair of its inputs (idealizing collision freedom of the KDF), and an
  AES-GCM sealed box records the key, the nonce and the plaintext it was
  sealed with; `gcmOpen` authenticates by comparing the key and nonce and
  fails on any mismatch, exactly the guarantee authenticated encryption is
  used for in the source. Byte-level AES/GCM arithmetic is outside the model.
* The `val` column holds either a plaintext string or the base64 encoding of
  a ciphertext; since ciphertexts are symbolic, the column is the sum type
  `Val`. `b64.EncodeToString` injects a sealed box, `b64.DecodeString`
  recovers it; decoding a plain-text cell does not denote a well-formed
  symbolic ciphertext and is modelled as a decode failure (that path is
  unreachable through the API, which always stores a nonce together with an
  encoded ciphertext).
* Randomness (`io.ReadFull(rand.Reader, ...)`) is modelled by threading the
  fresh bytes as explicit parameters (`freshNonce`, `freshSalt`), and the
  server-assigned `strftime` timestamp as an explicit `now` parameter.
* Environment failures (disk I/O, the random source, SQL driver errors) are
  outside the model: `db.Exec`/`QueryRow` are modelled as total operations on
  the table state. The error kinds the code itself produces on those paths
  (`ErrNotFound`, `ErrBadPassword`, `ErrPasswordNeeded`, and the base64
  decode failure wrapped in "cannot decrypt data") are the inductive
  `DepotError`. `fmt.Errorf("...: %w", err)` wrapping preserves the error
  kind for `errors.Is`, so a wrapped `ErrBadPassword` is still
  `DepotError.badPassword`.
* Go's `[]byte(val)` / `string(plaintext)` conversions are mutually inverse
  on the strings the API stores, so plaintexts stay `String` in the model.
-/

namespace LibDepot

/-- Byte strings (`[]byte` contents). -/
abbrev Bytes := List Nat

/-- The symmetric key derived by
`pbkdf2.Key(password, salt, 4096, 32, sha1.New)`: symbolically, the pair of
its varying inputs (iteration count, length and hash are fixed in the
source), idealized as collision-free. -/
structure DerivedKey where
  password : Bytes
  salt : Bytes
deriving DecidableEq, Repr

/-- `pbkdf2.Key(password, salt, 4096, 32, sha1.New)`. -/
def pbkdf2Key (password salt : Bytes) : DerivedKey :=
  ⟨password, salt⟩

/-- A symbolic AES-GCM sealed box: records the key, nonce and plaintext that
`aesgcm.Seal(nil, nonce, data, nil)` was called with. -/
structure SealedBox where
  key : DerivedKey
  nonce : Bytes
  plaintext : String
deriving DecidableEq, Repr

/-- `aesgcm.Seal(nil, nonce, data, nil)`. -/
def gcmSeal (key : DerivedKey) (nonce : Bytes) (data : String) : SealedBox :=
  ⟨key, nonce, data⟩

/-- `aesgcm.Open(nil, nonce, data, nil)`: authenticated decryption succeeds
exactly when the key and nonce match the ones the box was sealed with; any
mismatch (wrong key, i.e. wrong password, or a tampered nonce/ciphertext)
fails authentication. -/
def gcmOpen (key : DerivedKey) (nonce : Bytes) (box : SealedBox) : Option String :=
  if box.key = key ∧ box.nonce = nonce then some box.plaintext else none

/-- Contents of the `val` column: either a plaintext string or the base64
encoding of a (symbolic) ciphertext. -/
inductive Val where
  | text (s : String)
  | b64 (box : SealedBox)
deriving DecidableEq, Repr

/-- The string actually sitting in the `val` column, as `Fetch` returns it
unchanged when `nonce` is null. On a plaintext cell it is the stored string;
a base64 cell renders to its (symbolic) base64 text, which the API never
returns on any reachable state, since every base64 cell is written together
with a non-null nonce. -/
def Val.render : Val → String
  | .text s => s
  | .b64 box => toString (repr box)

/-- `b64.EncodeToString(ciphertext)`, producing the `val` column content. -/
def b64EncodeToString (box : SealedBox) : Val :=
  .b64 box

/-- `b64.DecodeString(val)`: recovers the symbolic ciphertext from a base64
cell; a plain-text cell does not denote a well-formed symbolic ciphertext. -/
def b64DecodeString : Val → Option SealedBox
  | .b64 box => some box
  | .text _ => none

/-- The error kinds produced by the library (modulo `%w` wrapping, which
`errors.Is` sees through): `ErrNotFound`, `ErrBadPassword`,
`ErrPasswordNeeded`, and a failure of `b64.DecodeString` wrapped in
"cannot decrypt data" (a kind of its own, matching none of the sentinels). -/
inductive DepotError where
  | notFound
  | badPassword
  | passwordNeeded
  | decodeFailure
deriving DecidableEq, Repr

/-- `encrypt(password, salt, data)`: derives the key, draws a fresh random
12-byte nonce (threaded in as `freshNonce`), and returns the sealed
ciphertext together with the nonce. -/
def encrypt (password salt : Bytes) (data : String) (freshNonce : Bytes) :
    SealedBox × Bytes :=
  let encryptionKey := pbkdf2Key password salt
  (gcmSeal encryptionKey freshNonce data, freshNonce)

/-- `decrypt(password, salt, nonce, data)`: derives the same key and opens
the box; an authentication failure is returned as `ErrBadPassword`. -/
def decrypt (password salt nonce : Bytes) (data : SealedBox) :
    Except DepotError String :=
  let encryptionKey := pbkdf2Key password salt
  match gcmOpen encryptionKey nonce data with
  | some plaintext => .ok plaintext
  | none => .error .badPassword

/-- One row of the `storage` table: `modified` (seconds since epoch), the
`val` column, and the nullable `nonce` column (`none` = SQL null =
plaintext entry). -/
structure Row where
  modified : Nat
  val : Val
  nonce : Option Bytes
deriving DecidableEq, Repr

/-- An open depot: the salt loaded by `NewDepot` plus the `storage` table,
keyed by the unique `key` column. -/
structure Depot where
  salt : Bytes
  storage : String → Option Row

/-- The `insert ... on conflict (key) do update set modified=..., val=...,
nonce=...` statement: a single conditional write that inserts a new row or
atomically replaces `val`, `nonce` and `modified` of the existing row. -/
def upsert (db : Depot) (now : Nat) (key : String) (v : Val)
    (nonce : Option Bytes) : Depot :=
  { db with storage := fun k => if k = key then some ⟨now, v, nonce⟩ else db.storage k }

/-- `Stow(key, val, password)`: with a nil password the value is upserted as
plain text with a null nonce; with a non-nil password (empty included) the
value is encrypted, base64-encoded, and upserted together with the fresh
nonce. -/
def Stow (db : Depot) (key val : String) (password : Option Bytes)
    (now : Nat) (freshNonce : Bytes) : Depot :=
  match password with
  | none => upsert db now key (.text val) none
  | some p =>
    let enc := encrypt p db.salt val freshNonce
    upsert db now key (b64EncodeToString enc.1) (some enc.2)

/-- `Fetch(key, password)`: looks the row up (`ErrNotFound` when absent);
returns the `val` column unchanged when `nonce` is null; fails with
`ErrPasswordNeeded` when `nonce` is present but the password is nil;
otherwise base64-decodes and decrypts, propagating the error kind. -/
def Fetch (db : Depot) (key : String) (password : Option Bytes) :
    Except DepotError String :=
  match db.storage key with
  | none => .error .notFound
  | some row =>
    match row.nonce with
    | none => .ok row.val.render
    | some nonce =>
      match password with
      | none => .error .passwordNeeded
      | some p =>
        match b64DecodeString row.val with
        | none => .error .decodeFailure
        | some box => decrypt p db.salt nonce box

/-- `Drop(key)`: `delete from storage where key = ?`. Deleting an absent key
is not a SQL error, so on the modelled (environment-failure-free) paths the
operation always returns success with the row removed. -/
def Drop (db : Depot) (key : String) : Except DepotError Depot :=
  .ok { db with storage := fun k => if k = key then none else db.storage k }

/-- `Peek(key)`: queries the row, ignoring every error (on a missing row the
scanned variables keep their zero values `""` and nil); returns `""` when
the nonce is present and the `val` column otherwise. It returns a plain
string — no error channel exists. -/
def Peek (db : Depot) (key : String) : String :=
  match db.storage key with
  | none => ""
  | some row =>
    match row.nonce with
    | some _ => ""
    | none => row.val.render

/-- The on-disk database file as seen by `NewDepot`: the rows of the `salt`
table (in insertion order, so `select data from salt` scans the head) and
the `storage` table. -/
structure DBFile where
  saltRows : List Bytes
  storage : String → Option Row

/-- `NewDepot(uri)`: reads `select data from salt`; if a row exists its salt
is used and nothing is written; otherwise (no rows, or the table freshly
created by `init`) a random 32-byte salt (threaded in as `freshSalt`) is
generated and inserted. Returns the updated file and the open depot. -/
def NewDepot (file : DBFile) (freshSalt : Bytes) : DBFile × Depot :=
  match file.saltRows.head? with
  | some s => (file, ⟨s, file.storage⟩)
  | none => ({ file with saltRows := [freshSalt] }, ⟨freshSalt, file.storage⟩)

/-! ## Theorems -/

/-- Claim C2: for every key K and value string V, after `Stow(K, V, nil)`
(nil password, plaintext path), `Fetch(K, nil)` returns exactly V and
`Peek(K)` also returns V. -/
theorem stow_nil_fetch_peek_roundtrip (db : Depot) (key v : String)
    (now : Nat) (freshNonce : Bytes) :
    Fetch (Stow db key v none now freshNonce) key none = .ok v ∧
    Peek (Stow db key v none now freshNonce) key = v := by
  constructor <;> simp [Stow, Fetch, Peek, upsert, Val.render]

/-- Claim C1 fails as stated at V = "": with key "k", value "" and the
non-empty password [1], `Peek` after `Stow` returns "", which is exactly the
stowed value, so "Peek never returns V" is violated (while the fetch
round-trip and the emptiness of the peek do hold at this input). -/
theorem stow_fetch_encrypted_counterexample :
    ¬ (Fetch (Stow ⟨[0], fun _ => none⟩ "k" "" (some [1]) 0 [2]) "k" (some [1]) =
         .ok "" ∧
       Peek (Stow ⟨[0], fun _ => none⟩ "k" "" (some [1]) 0 [2]) "k" = "" ∧
       Peek (Stow ⟨[0], fun _ => none⟩ "k" "" (some [1]) 0 [2]) "k" ≠ "") :=
  fun h => h.2.2 h.2.1

/-- Claim C1, amended: for every key K, value V and non-empty password P,
after `Stow(K, V, P)`, `Fetch(K, P)` returns exactly V and `Peek(K)` returns
the empty string — which differs from V whenever V is non-empty. -/
theorem stow_fetch_encrypted_roundtrip (db : Depot) (key v : String)
    (p : Bytes) (hp : p ≠ []) (now : Nat) (freshNonce : Bytes) :
    Fetch (Stow db key v (some p) now freshNonce) key (some p) = .ok v ∧
    Peek (Stow db key v (some p) now freshNonce) key = "" ∧
    (v ≠ "" → Peek (Stow db key v (some p) now freshNonce) key ≠ v) := by
  refine ⟨?_, ?_, ?_⟩
  · simp [Stow, Fetch, upsert, encrypt, decrypt, gcmSeal, gcmOpen,
      b64EncodeToString, b64DecodeString, pbkdf2Key]
  · simp [Stow, Peek, upsert, encrypt, b64EncodeToString]
  · intro hv
    simp only [Stow, Peek, upsert, encrypt, b64EncodeToString]
    simp [Ne.symm hv]

theorem stow_fetch_encrypted_roundtrip_witness :
    Fetch (Stow ⟨[0], fun _ => none⟩ "k" "v" (some [1]) 0 [2]) "k" (some [1]) =
      .ok "v" ∧
    Peek (Stow ⟨[0], fun _ => none⟩ "k" "v" (some [1]) 0 [2]) "k" = "" ∧
    ("v" ≠ "" →
      Peek (Stow ⟨[0], fun _ => none⟩ "k" "v" (some [1]) 0 [2]) "k" ≠ "v") :=
  stow_fetch_encrypted_roundtrip ⟨[0], fun _ => none⟩ "k" "v" [1]
    (by decide) 0 [2]

/-- Claim C3: whenever the stored record under K is encrypted (its nonce is
present), `Fetch(K, nil)` with an absent password fails with exactly the
"password required" error kind — not "bad password" or any other kind. -/
theorem fetch_nil_password_on_encrypted (db : Depot) (key : String)
    (row : Row) (n : Bytes) (hrow : db.storage key = some row)
    (hn : row.nonce = some n) :
    Fetch db key none = .error .passwordNeeded := by
  simp [Fetch, hrow, hn]

theorem fetch_nil_password_on_encrypted_witness :
    Fetch
      ⟨[0], fun k =>
        if k = "k" then some ⟨0, .b64 ⟨⟨[1], [0]⟩, [2], "v"⟩, some [2]⟩
        else none⟩
      "k" none = .error .passwordNeeded :=
  fetch_nil_password_on_encrypted
    ⟨[0], fun k =>
      if k = "k" then some ⟨0, .b64 ⟨⟨[1], [0]⟩, [2], "v"⟩, some [2]⟩
      else none⟩
    "k" ⟨0, .b64 ⟨⟨[1], [0]⟩, [2], "v"⟩, some [2]⟩ [2] (by simp) rfl

/-- Claim C5: after `Stow(K, V, P)`, fetching with any password P' different
from P fails with the "bad password" error kind. -/
theorem fetch_wrong_password (db : Depot) (key v : String) (p q : Bytes)
    (hpq : q ≠ p) (now : Nat) (freshNonce : Bytes) :
    Fetch (Stow db key v (some p) now freshNonce) key (some q) =
      .error .badPassword := by
  simp [Stow, Fetch, upsert, encrypt, decrypt, gcmSeal, gcmOpen,
    b64EncodeToString, b64DecodeString, pbkdf2Key, Ne.symm hpq]

theorem fetch_wrong_password_witness :
    Fetch (Stow ⟨[0], fun _ => none⟩ "k" "v" (some [1]) 0 [2]) "k" (some [3]) =
      .error .badPassword :=
  fetch_wrong_password ⟨[0], fun _ => none⟩ "k" "v" [1] [3] (by decide) 0 [2]

/-- Claim C4: `Peek` has no error channel at all (it returns a plain
string), and for every key it returns the stored plaintext when an
unencrypted record exists, and the empty string both when no record exists
and when the record is encrypted — the caller cannot tell the two empty
cases apart, since both produce the same `""`. -/
theorem peek_never_errors (db : Depot) (key : String) :
    (db.storage key = none → Peek db key = "") ∧
    (∀ row n, db.storage key = some row → row.nonce = some n →
      Peek db key = "") ∧
    (∀ row s, db.storage key = some row → row.nonce = none →
      row.val = .text s → Peek db key = s) := by
  refine ⟨fun h => by simp [Peek, h], fun row n hrow hn => ?_,
    fun row s hrow hn hval => ?_⟩
  · simp [Peek, hrow, hn]
  · simp [Peek, hrow, hn, hval, Val.render]

theorem peek_never_errors_witness :
    Peek ⟨[0], fun _ => none⟩ "k" = "" :=
  (peek_never_errors ⟨[0], fun _ => none⟩ "k").1 rfl

/-- Claim C6: once `Fetch` reaches an encrypted record (nonce present,
base64 ciphertext cell) with a supplied password, exactly two outcomes are
possible: either the box authenticates — its key is the one derived from the
supplied password and its nonce matches the stored nonce — and the sealed
plaintext is returned, or the single "bad password" error kind is returned.

A wrong password and a corrupted (re-sealed or nonce-tampered)
ciphertext both take the second branch: no error kind distinguishes them. -/
theorem fetch_encrypted_two_outcomes (db : Depot) (key : String) (row : Row)
    (box : SealedBox) (n p : Bytes) (hrow : db.storage key = some row)
    (hval : row.val = .b64 box) (hn : row.nonce = some n) :
    (box.key = pbkdf2Key p db.salt ∧ box.nonce = n ∧
      Fetch db key (some p) = .ok box.plaintext) ∨
    Fetch db key (some p) = .error .badPassword := by
  by_cases hauth : box.key = pbkdf2Key p db.salt ∧ box.nonce = n
  · exact .inl ⟨hauth.1, hauth.2, by
      simp [Fetch, hrow, hn, hval, b64DecodeString, decrypt, gcmOpen, hauth]⟩
  · exact .inr (by
      simp [Fetch, hrow, hn, hval, b64DecodeString, decrypt, gcmOpen, hauth])

theorem fetch_encrypted_two_outcomes_witness :
    (SealedBox.key ⟨⟨[9], [0]⟩, [5], "v"⟩ = pbkdf2Key [1] [0] ∧
      SealedBox.nonce ⟨⟨[9], [0]⟩, [5], "v"⟩ = [2] ∧
      Fetch
        ⟨[0], fun k =>
          if k = "k" then some ⟨0, .b64 ⟨⟨[9], [0]⟩, [5], "v"⟩, some [2]⟩
          else none⟩
        "k" (some [1]) = .ok (SealedBox.plaintext ⟨⟨[9], [0]⟩, [5], "v"⟩)) ∨
    Fetch
      ⟨[0], fun k =>
        if k = "k" then some ⟨0, .b64 ⟨⟨[9], [0]⟩, [5], "v"⟩, some [2]⟩
        else none⟩
      "k" (some [1]) = .error .badPassword :=
  fetch_encrypted_two_outcomes
    ⟨[0], fun k =>
      if k = "k" then some ⟨0, .b64 ⟨⟨[9], [0]⟩, [5], "v"⟩, some [2]⟩
      else none⟩
    "k" ⟨0, .b64 ⟨⟨[9], [0]⟩, [5], "v"⟩, some [2]⟩ ⟨⟨[9], [0]⟩, [5], "v"⟩
    [2] [1] (by simp) rfl rfl

/-- Claim C7: `Drop(K)` always returns success — also when no record for K
exists, in which case the table is left unchanged (a no-op, not an error) —
and on the resulting state `Fetch(K, p)` fails with "not found" for every
password p while `Peek(K)` returns empty. -/
theorem drop_idempotent_delete (db : Depot) (key : String) :
    ∃ dropped, Drop db key = .ok dropped ∧
      (∀ p, Fetch dropped key p = .error .notFound) ∧
      Peek dropped key = "" ∧
      (db.storage key = none → dropped.storage = db.storage) := by
  refine ⟨_, rfl, fun p => by simp [Fetch], by simp [Peek], fun h => ?_⟩
  funext k
  by_cases hk : k = key
  · simp [hk, h]
  · simp [hk]

theorem drop_idempotent_delete_witness :
    ∃ dropped, Drop ⟨[0], fun _ => none⟩ "k" = .ok dropped ∧
      (∀ p, Fetch dropped "k" p = .error .notFound) ∧
      Peek dropped "k" = "" ∧
      (Depot.storage ⟨[0], fun _ => none⟩ "k" = none →
        dropped.storage = Depot.storage ⟨[0], fun _ => none⟩) :=
  drop_idempotent_delete ⟨[0], fun _ => none⟩ "k"

/-- Claim C8: `Stow` on an existing key replaces the record's `val`, `nonce`
and `modified` in one upsert: after `Stow(K, V1, nil)` the record is
plaintext (null nonce, text cell V1), and after a following
`Stow(K, V2, P)` the record is exactly the freshly encrypted row — modified
stamp, ciphertext cell and nonce all from the second write — so
`Fetch(K, P)` returns V2 and the encryption state has flipped (`Peek`
now returns empty). -/
theorem stow_overwrite_flips_encryption (db : Depot) (key v1 v2 : String)
    (p : Bytes) (t1 t2 : Nat) (n1 n2 : Bytes) :
    (Stow db key v1 none t1 n1).storage key = some ⟨t1, .text v1, none⟩ ∧
    (Stow (Stow db key v1 none t1 n1) key v2 (some p) t2 n2).storage key =
      some ⟨t2, .b64 (gcmSeal (pbkdf2Key p db.salt) n2 v2), some n2⟩ ∧
    Fetch (Stow (Stow db key v1 none t1 n1) key v2 (some p) t2 n2) key
      (some p) = .ok v2 ∧
    Peek (Stow (Stow db key v1 none t1 n1) key v2 (some p) t2 n2) key = "" := by
  refine ⟨by simp [Stow, upsert], ?_, ?_, ?_⟩
  · simp [Stow, upsert, encrypt, b64EncodeToString, gcmSeal, pbkdf2Key]
  · simp [Stow, Fetch, upsert, encrypt, decrypt, gcmSeal, gcmOpen,
      b64EncodeToString, b64DecodeString, pbkdf2Key]
  · simp [Stow, Peek, upsert, encrypt, b64EncodeToString]

/-- Claim C10: only an exactly-nil password selects the plaintext path. An
empty but non-nil password (`some []`, the zero-length byte slice) makes
`Stow` store an encrypted record — the nonce is present — and `Fetch`
treats `some []` as a supplied password: it decrypts and returns the value
rather than failing with "password required". -/
theorem stow_empty_nonnil_password_encrypts (db : Depot) (key v : String)
    (now : Nat) (freshNonce : Bytes) :
    (∃ row, (Stow db key v (some []) now freshNonce).storage key = some row ∧
      row.nonce = some freshNonce) ∧
    Fetch (Stow db key v (some []) now freshNonce) key (some []) = .ok v ∧
    Fetch (Stow db key v (some []) now freshNonce) key (some []) ≠
      .error .passwordNeeded := by
  refine ⟨⟨⟨now, b64EncodeToString (gcmSeal (pbkdf2Key [] db.salt) freshNonce v),
    some freshNonce⟩,
    by simp [Stow, upsert, encrypt, b64EncodeToString, gcmSeal, pbkdf2Key],
    rfl⟩, ?_, ?_⟩
  · simp [Stow, Fetch, upsert, encrypt, decrypt, gcmSeal, gcmOpen,
      b64EncodeToString, b64DecodeString, pbkdf2Key]
  · simp [Stow, Fetch, upsert, encrypt, decrypt, gcmSeal, gcmOpen,
      b64EncodeToString, b64DecodeString, pbkdf2Key]

/-- Claim C9: the salt lifecycle of `NewDepot`. Opening a file holding at
most one salt row leaves exactly one: when none exists the fresh 32-byte
salt is persisted and used; when one exists it is returned unchanged with
no write at all; and any later open of the resulting file is a complete
no-op returning the very same salt. Every `Stow` (and, by `Fetch` reading
only `db.salt`, every decryption) on the opened depot uses that one salt:
stowing never changes the depot's salt field. -/
theorem newDepot_salt_lifecycle (file : DBFile) (freshSalt freshSalt2 : Bytes)
    (hlen : freshSalt.length = 32) (hinv : file.saltRows.length ≤ 1) :
    (NewDepot file freshSalt).1.saltRows.length = 1 ∧
    (NewDepot file freshSalt).1.saltRows.head? =
      some (NewDepot file freshSalt).2.salt ∧
    (file.saltRows = [] →
      (NewDepot file freshSalt).2.salt = freshSalt ∧
      (NewDepot file freshSalt).1.saltRows = [freshSalt] ∧
      (NewDepot file freshSalt).2.salt.length = 32) ∧
    (∀ s rest, file.saltRows = s :: rest →
      (NewDepot file freshSalt).2.salt = s ∧
      (NewDepot file freshSalt).1 = file) ∧
    NewDepot (NewDepot file freshSalt).1 freshSalt2 = NewDepot file freshSalt ∧
    (∀ key v pw now n,
      (Stow (NewDepot file freshSalt).2 key v pw now n).salt =
        (NewDepot file freshSalt).2.salt) := by
  cases hfile : file.saltRows with
  | nil =>
    refine ⟨by simp [NewDepot, hfile], by simp [NewDepot, hfile],
      fun _ => ⟨by simp [NewDepot, hfile], by simp [NewDepot, hfile],
        by simp [NewDepot, hfile, hlen]⟩,
      fun s rest hs => absurd hs (by simp), by simp [NewDepot, hfile], ?_⟩
    intro key v pw now n
    cases pw <;> simp [NewDepot, hfile, Stow, upsert]
  | cons s rest =>
    refine ⟨?_, by simp [NewDepot, hfile],
      fun habs => absurd habs (by simp),
      fun t trest ht => ?_, by simp [NewDepot, hfile], ?_⟩
    · rw [hfile] at hinv
      simp only [NewDepot, hfile, List.head?]
      simp only [List.length_cons] at hinv ⊢
      omega
    · injection ht with h1 h2
      subst h1
      exact ⟨by simp [NewDepot, hfile], by simp [NewDepot, hfile]⟩
    · intro key v pw now n
      cases pw <;> simp [NewDepot, hfile, Stow, upsert]

theorem newDepot_salt_lifecycle_witness :
    (NewDepot ⟨[], fun _ => none⟩ (List.replicate 32 7)).1.saltRows.length =
      1 ∧
    (NewDepot ⟨[], fun _ => none⟩ (List.replicate 32 7)).1.saltRows.head? =
      some (NewDepot ⟨[], fun _ => none⟩ (List.replicate 32 7)).2.salt ∧
    (DBFile.saltRows ⟨[], fun _ => none⟩ = [] →
      (NewDepot ⟨[], fun _ => none⟩ (List.replicate 32 7)).2.salt =
        List.replicate 32 7 ∧
      (NewDepot ⟨[], fun _ => none⟩ (List.replicate 32 7)).1.saltRows =
        [List.replicate 32 7] ∧
      (NewDepot ⟨[], fun _ => none⟩ (List.replicate 32 7)).2.salt.length =
        32) ∧
    (∀ s rest, DBFile.saltRows ⟨[], fun _ => none⟩ = s :: rest →
      (NewDepot ⟨[], fun _ => none⟩ (List.replicate 32 7)).2.salt = s ∧
      (NewDepot ⟨[], fun _ => none⟩ (List.replicate 32 7)).1 =
        ⟨[], fun _ => none⟩) ∧
    NewDepot (NewDepot ⟨[], fun _ => none⟩ (List.replicate 32 7)).1
        (List.replicate 32 9) =
      NewDepot ⟨[], fun _ => none⟩ (List.replicate 32 7) ∧
    (∀ key v pw now n,
      (Stow (NewDepot ⟨[], fun _ => none⟩ (List.replicate 32 7)).2 key v pw
          now n).salt =
        (NewDepot ⟨[], fun _ => none⟩ (List.replicate 32 7)).2.salt) :=
  newDepot_salt_lifecycle ⟨[], fun _ => none⟩ (List.replicate 32 7)
    (List.replicate 32 9) (by simp) (by simp)

end LibDepot
